import Mathlib

/-
  Shallow embedding of the HRMS backend's leave workflow and attendance
  tracker, translated from:
    - src/controllers/leaveController.js
    - src/controllers/attendanceController.js
    - src/models/Leave.js            (leaveSchema and its save middleware)
    - attendance schema + middleware (attendanceSchema, unique index)
    - employee schema                (employeeSchema: status, leaveBalance)

  Timestamps are modelled as integers (milliseconds since the epoch,
  JavaScript Date values).  The server is assumed to run with a UTC local
  timezone, so `new Date(Date.UTC(now.getFullYear(), now.getMonth(),
  now.getDate()))` is the UTC-midnight floor of `now`.  JavaScript number
  arithmetic on these quantities is modelled exactly: millisecond values as
  Int, derived fractional quantities (work hours, rates) as Rat, and
  Math.round as floor (x + 1/2).
-/

deriving instance DecidableEq for Except

namespace HRMS

/-- Leave types: the `leaveType` enum of leaveSchema. -/
inductive LeaveType
  | annual | sick | personal | unpaid | maternity | paternity
deriving DecidableEq, Repr

/-- Leave statuses: the `status` enum of leaveSchema. -/
inductive LeaveStatus
  | pending | approved | rejected | cancelled
deriving DecidableEq, Repr

/-- Employment statuses: the `status` enum of employeeSchema. -/
inductive EmpStatus
  | active | inactive | terminated | onLeave
deriving DecidableEq, Repr

/-- Attendance statuses: the `status` enum of attendanceSchema. -/
inductive AttStatus
  | present | absent | halfDay | onLeave | holiday | weekend
deriving DecidableEq, Repr

/-- The per-type leave balance counters of employeeSchema (`leaveBalance`:
    annual/sick/personal/unpaid).  JavaScript numbers; the schema declares
    exactly these four keys. -/
structure LeaveBalance where
  annual : Int
  sick : Int
  personal : Int
  unpaid : Int
deriving DecidableEq, Repr

/-- The keys present on a `leaveBalance` object. -/
inductive BalanceKey
  | annual | sick | personal | unpaid
deriving DecidableEq, Repr

def getBalance (b : LeaveBalance) : BalanceKey → Int
  | .annual => b.annual
  | .sick => b.sick
  | .personal => b.personal
  | .unpaid => b.unpaid

def setBalance (b : LeaveBalance) : BalanceKey → Int → LeaveBalance
  | .annual, v => { b with annual := v }
  | .sick, v => { b with sick := v }
  | .personal, v => { b with personal := v }
  | .unpaid, v => { b with unpaid := v }

/-- `leave.leaveType.toLowerCase().replace('-', '')` looked up in
    `employee.leaveBalance`: the four balance keys match the identically
    spelled leave types; `maternity`/`paternity` have no balance counter
    (`leaveBalance[key] === undefined`). -/
def balanceKey : LeaveType → Option BalanceKey
  | .annual => some .annual
  | .sick => some .sick
  | .personal => some .personal
  | .unpaid => some .unpaid
  | .maternity => none
  | .paternity => none

/-- An employee document (the fields of employeeSchema this core reads). -/
structure EmployeeDoc where
  id : Nat
  email : String
  status : EmpStatus
  leaveBalance : LeaveBalance
deriving DecidableEq, Repr

/-- A leave document: exactly the persisted paths of leaveSchema.  The
    schema runs in mongoose strict mode (the default), so assignments to
    paths not declared here - in particular the controller's
    `leave.approverComments = ...` - are not persisted and have no
    counterpart in this structure.  `rejectionReason` is the only
    comment-like path the schema declares. -/
structure LeaveDoc where
  id : Nat
  employeeId : Nat
  leaveType : LeaveType
  startDate : Int
  endDate : Int
  totalDays : Int
  reason : String
  status : LeaveStatus := .pending
  approvedBy : Option Nat := none
  approvedAt : Option Int := none
  rejectionReason : Option String := none
deriving DecidableEq, Repr

/-- An attendance document: the persisted paths of attendanceSchema used
    by this core. -/
structure AttendanceDoc where
  id : Nat
  employeeId : Nat
  date : Int
  clockIn : Option Int := none
  clockOut : Option Int := none
  breakStart : Option Int := none
  breakEnd : Option Int := none
  totalWorkHours : Rat := 0
  status : AttStatus := .present
deriving DecidableEq, Repr

/-- The authenticated principal (`req.user`): email plus the optionally
    linked employee id.  The leave approval/rejection handlers resolve the
    approver by email only. -/
structure User where
  email : String
  employeeId : Option Nat := none
deriving DecidableEq, Repr

/-- The document-store state the leave workflow touches. -/
structure Db where
  leaves : List LeaveDoc
  employees : List EmployeeDoc
deriving DecidableEq, Repr

/-- Error conditions surfaced by the controllers (paired with their HTTP
    status codes at the use sites). -/
inductive ApiErr
  | notFound
  | alreadyProcessed
  | selfAction
  | alreadyClockedIn
  | noClockInRecord
  | alreadyClockedOut
deriving DecidableEq, Repr

/-- `Leave.findById` -/
def findLeave (ls : List LeaveDoc) (i : Nat) : Option LeaveDoc :=
  ls.find? fun l => decide (l.id = i)

/-- `Employee.findOne({ email })` (email is unique in the schema; the store
    returns the first match) -/
def findEmpByEmail (es : List EmployeeDoc) (em : String) : Option EmployeeDoc :=
  es.find? fun e => decide (e.email = em)

/-- `Employee.findById` -/
def findEmpById (es : List EmployeeDoc) (i : Nat) : Option EmployeeDoc :=
  es.find? fun e => decide (e.id = i)

/-- Persisting a document by id (`document.save()` / `findByIdAndUpdate`
    write-back). -/
def saveLeave (ls : List LeaveDoc) (d : LeaveDoc) : List LeaveDoc :=
  ls.map fun l => if l.id = d.id then d else l

def saveEmp (es : List EmployeeDoc) (d : EmployeeDoc) : List EmployeeDoc :=
  es.map fun e => if e.id = d.id then d else e

def saveAtt (as' : List AttendanceDoc) (d : AttendanceDoc) : List AttendanceDoc :=
  as'.map fun a => if a.id = d.id then d else a

/-- One day in milliseconds. -/
def dayMs : Int := 86400000

/-- `new Date(Date.UTC(now.getFullYear(), now.getMonth(), now.getDate()))`:
    the UTC-midnight floor of `now` (server local time = UTC). -/
def todayOf (now : Int) : Int := dayMs * (Int.fdiv now dayMs)

/-- leaveSchema save middleware:
    `totalDays = Math.ceil(Math.abs(endDate - startDate) / 86400000) + 1`.
    For a non-negative integer byte count, JavaScript Math.ceil of the
    division equals Nat ceiling division. -/
def computeTotalDays (s e : Int) : Int :=
  ((((e - s).natAbs + 86399999) / 86400000 : Nat) : Int) + 1

/-- The leaveSchema pre-save middleware (runs on `Leave.create` and on every
    `document.save()`; startDate/endDate are schema-required, and Date
    objects are always truthy, so the recomputation is unconditional). -/
def leavePreSave (d : LeaveDoc) : LeaveDoc :=
  { d with totalDays := computeTotalDays d.startDate d.endDate }

/-- JavaScript `Math.round`: floor (x + 1/2). -/
def jsRound (q : Rat) : Int := ⌊q + 1/2⌋

/-- The attendanceSchema pre-save middleware: when both clockIn and
    clockOut are set, `totalWorkHours = Math.round((workMs / 3600000) * 100)
    / 100` where workMs subtracts the break interval when both break
    timestamps are set. -/
def attPreSave (d : AttendanceDoc) : AttendanceDoc :=
  match d.clockIn, d.clockOut with
  | some ci, some co =>
    let breakMs : Int :=
      match d.breakStart, d.breakEnd with
      | some bs, some be => be - bs
      | _, _ => 0
    let workMs : Int := (co - ci) - breakMs
    { d with totalWorkHours := ((jsRound ((workMs : Rat) / 3600000 * 100) : Rat) / 100) }
  | _, _ => d

/-- Response of a leave endpoint: the HTTP error (status code, condition)
    or the JSON `data` document. -/
abbrev LeaveResp := Except (Nat × ApiErr) LeaveDoc

/-- The caller-controlled body of `PATCH /api/v1/leaves/:id`:
    `findByIdAndUpdate(id, req.body, { new: true, runValidators: true })`
    applies every schema path present in the body (including `status` and
    `totalDays`); update validators check the enum values, which the typing
    here guarantees.  Paths not listed in the schema are dropped by strict
    mode. -/
structure LeavePatch where
  leaveType : Option LeaveType := none
  startDate : Option Int := none
  endDate : Option Int := none
  totalDays : Option Int := none
  reason : Option String := none
  status : Option LeaveStatus := none
deriving DecidableEq, Repr

def applyPatch (l : LeaveDoc) (p : LeavePatch) : LeaveDoc :=
  { l with
    leaveType := p.leaveType.getD l.leaveType
    startDate := p.startDate.getD l.startDate
    endDate := p.endDate.getD l.endDate
    totalDays := p.totalDays.getD l.totalDays
    reason := p.reason.getD l.reason
    status := p.status.getD l.status }

/-- The caller-controlled body of `POST /api/v1/leaves` after employee
    resolution.  startDate, endDate, totalDays and reason are
    schema-required (document validation runs before the user save
    middleware, so a create without them fails validation); `status`
    defaults to `pending`. -/
structure CreateLeaveInput where
  leaveType : LeaveType
  startDate : Int
  endDate : Int
  totalDays : Int
  reason : String
  status : Option LeaveStatus := none
deriving DecidableEq, Repr

/-- `exports.createLeave` (leaveController.js), after the employee id has
    been resolved: `Leave.create({...req.body, employeeId})`.  `create`
    validates and then runs the save middleware, which overwrites the
    caller's totalDays. -/
def createLeave (db : Db) (newId : Nat) (eid : Nat) (input : CreateLeaveInput) :
    Db × LeaveResp :=
  let doc := leavePreSave
    { id := newId
      employeeId := eid
      leaveType := input.leaveType
      startDate := input.startDate
      endDate := input.endDate
      totalDays := input.totalDays
      reason := input.reason
      status := input.status.getD .pending }
  ({ db with leaves := db.leaves ++ [doc] }, .ok doc)

/-- `exports.updateLeave` (leaveController.js).  `findByIdAndUpdate`
    persists the patched document directly; document save middleware
    (`leavePreSave`) does not run on this path, so totalDays is not
    recomputed here. -/
def updateLeave (db : Db) (i : Nat) (p : LeavePatch) : Db × LeaveResp :=
  match findLeave db.leaves i with
  | none => (db, .error (404, .notFound))
  | some leave =>
    -- Only allow updates if status is pending
    if leave.status = .pending then
      let updated := applyPatch leave p
      ({ db with leaves := saveLeave db.leaves updated }, .ok updated)
    else (db, .error (400, .alreadyProcessed))

/-- The successful tail of `exports.approveLeave`: set status/approvedBy/
    approvedAt, save (running the leaveSchema middleware), then deduct the
    leave balance from the owning employee when the employee record exists
    and `leaveBalance[key]` is defined for this leave type.  The
    controller's `leave.approverComments = req.body.comments` assigns a
    path that leaveSchema does not declare, so strict mode drops it on
    save: the comments reach no persisted field. -/
def approveCommit (db : Db) (leave : LeaveDoc) (approverId : Option Nat)
    (now : Int) : Db × LeaveResp :=
  let saved := leavePreSave
    { leave with status := .approved, approvedBy := approverId, approvedAt := some now }
  let leaves1 := saveLeave db.leaves saved
  let employees1 :=
    match findEmpById db.employees leave.employeeId with
    | none => db.employees
    | some emp =>
      match balanceKey leave.leaveType with
      | none => db.employees
      | some k =>
        saveEmp db.employees
          { emp with leaveBalance :=
              setBalance emp.leaveBalance k (getBalance emp.leaveBalance k - saved.totalDays) }
  ({ leaves := leaves1, employees := employees1 }, .ok saved)

/-- `exports.approveLeave` (leaveController.js).  The `comments` body field
    is accepted but (see `approveCommit`) never persisted. -/
def approveLeave (db : Db) (i : Nat) (u : User) (_comments : Option String)
    (now : Int) : Db × LeaveResp :=
  match findLeave db.leaves i with
  | none => (db, .error (404, .notFound))
  | some leave =>
    if leave.status = .pending then
      match findEmpByEmail db.employees u.email with
      | some approver =>
        -- Prevent self-approval
        if leave.employeeId = approver.id then (db, .error (400, .selfAction))
        else approveCommit db leave (some approver.id) now
      | none => approveCommit db leave none now
    else (db, .error (400, .alreadyProcessed))

/-- The successful tail of `exports.rejectLeave`: set status/approvedBy/
    approvedAt and save; no leave-balance mutation.  As in `approveCommit`,
    the comments/reason assignment targets a non-schema path and is not
    persisted. -/
def rejectCommit (db : Db) (leave : LeaveDoc) (approverId : Option Nat)
    (now : Int) : Db × LeaveResp :=
  let saved := leavePreSave
    { leave with status := .rejected, approvedBy := approverId, approvedAt := some now }
  ({ db with leaves := saveLeave db.leaves saved }, .ok saved)

/-- `exports.rejectLeave` (leaveController.js). -/
def rejectLeave (db : Db) (i : Nat) (u : User) (_comments : Option String)
    (now : Int) : Db × LeaveResp :=
  match findLeave db.leaves i with
  | none => (db, .error (404, .notFound))
  | some leave =>
    if leave.status = .pending then
      match findEmpByEmail db.employees u.email with
      | some approver =>
        -- Prevent self-rejection
        if leave.employeeId = approver.id then (db, .error (400, .selfAction))
        else rejectCommit db leave (some approver.id) now
      | none => rejectCommit db leave none now
    else (db, .error (400, .alreadyProcessed))

/-- `exports.deleteLeave` (leaveController.js): `leave.deleteOne()` removes
    the looked-up document. -/
def deleteLeave (db : Db) (i : Nat) : Db × Except (Nat × ApiErr) Unit :=
  match findLeave db.leaves i with
  | none => (db, .error (404, .notFound))
  | some leave =>
    -- Only allow deletion if status is pending
    if leave.status = .pending then
      ({ db with leaves := db.leaves.filter fun l => decide (¬ l.id = i) }, .ok ())
    else (db, .error (400, .alreadyProcessed))

/-- The day-window membership test used by the attendance handlers:
    `{ employeeId, date: { $gte: today, $lt: tomorrow } }`. -/
def attWindow (today : Int) (eid : Nat) (r : AttendanceDoc) : Bool :=
  decide (r.employeeId = eid ∧ today ≤ r.date ∧ r.date < today + dayMs)

/-- `exports.clockIn` (attendanceController.js), after employee resolution.
    `checkDb` is the store state the `findOne` duplicate check reads;
    `createDb` is the state the subsequent `Attendance.create` inserts
    into.  The two may differ when another request commits in between; the
    unique `(employeeId, date)` index then rejects the insert with a
    duplicate-key error (`error.code === 11000`), which the handler catches
    and reports as 400 Already clocked in. -/
def clockIn (checkDb createDb : List AttendanceDoc) (eid : Nat) (now : Int)
    (newId : Nat) : Except (Nat × ApiErr) (List AttendanceDoc × AttendanceDoc) :=
  let today := todayOf now
  match checkDb.find? (attWindow today eid) with
  | some _ => .error (400, .alreadyClockedIn)
  | none =>
    if createDb.any (fun r => decide (r.employeeId = eid ∧ r.date = today)) then
      .error (400, .alreadyClockedIn)
    else
      let doc := attPreSave
        { id := newId, employeeId := eid, date := today, clockIn := some now,
          status := .present }
      .ok (createDb ++ [doc], doc)

/-- `exports.clockOut` (attendanceController.js), after employee
    resolution.  Saving runs the attendanceSchema middleware, which
    recomputes totalWorkHours. -/
def clockOut (dbA : List AttendanceDoc) (eid : Nat) (now : Int) :
    Except (Nat × ApiErr) (List AttendanceDoc × AttendanceDoc) :=
  let today := todayOf now
  match dbA.find? (attWindow today eid) with
  | none => .error (400, .noClockInRecord)
  | some att =>
    match att.clockOut with
    | some _ => .error (400, .alreadyClockedOut)
    | none =>
      let doc := attPreSave { att with clockOut := some now }
      .ok (saveAtt dbA doc, doc)

/-- The `data` object of `GET /api/v1/attendance/stats` (weeklyStats, an
    independent aggregation, omitted). -/
structure AttStats where
  presentToday : Nat
  absentToday : Int
  totalEmployees : Nat
  attendanceRate : Int
deriving DecidableEq, Repr

/-- `exports.getAttendanceStats` (attendanceController.js):
    presentToday counts today's records with status 'present';
    totalEmployees counts employees with `status: { $ne: 'terminated' }`;
    absentToday = totalEmployees - presentToday (no correction when
    negative); attendanceRate = Math.round(presentToday / totalEmployees *
    100) guarded by totalEmployees > 0, else 0. -/
def getAttendanceStats (emps : List EmployeeDoc) (dbA : List AttendanceDoc)
    (now : Int) : AttStats :=
  let today := todayOf now
  let presentToday :=
    (dbA.filter fun r =>
      decide (today ≤ r.date ∧ r.date < today + dayMs ∧ r.status = .present)).length
  let totalEmployees := (emps.filter fun e => decide (¬ e.status = .terminated)).length
  { presentToday := presentToday
    absentToday := (totalEmployees : Int) - (presentToday : Int)
    totalEmployees := totalEmployees
    attendanceRate :=
      if 0 < totalEmployees then
        jsRound ((presentToday : Rat) / (totalEmployees : Rat) * 100)
      else 0 }

/-- Statement vocabulary: the worked time the specification describes -
    (clockOut − clockIn) expressed in hours, minus the break interval
    (breakEnd − breakStart) in hours when both break timestamps are
    present. -/
def specWorkedHours (ci co : Int) (brS brE : Option Int) : Rat :=
  ((co - ci : Int) : Rat) / 3600000 -
    (match brS, brE with
     | some bs, some be => ((be - bs : Int) : Rat) / 3600000
     | _, _ => 0)

/-- Statement vocabulary: rounding to 2 decimal places. -/
def round2 (q : Rat) : Rat := ((jsRound (q * 100) : Int) : Rat) / 100

/-- A leave request for 2024-01-15T00:00Z .. 2024-01-17T00:00Z (epoch
    milliseconds), as in the specification's example. -/
def leaveJan15to17 : LeaveDoc :=
  { id := 0, employeeId := 0, leaveType := .annual, startDate := 1705276800000,
    endDate := 1705449600000, totalDays := 0, reason := "" }

/-- An attendance record with clockIn = T0 = 0 and clockOut = T0 + 8h and
    no break, as in the specification's example. -/
def attT0plus8h : AttendanceDoc :=
  { id := 0, employeeId := 0, date := 0, clockIn := some 0, clockOut := some 28800000 }

/-- The record `clockIn` creates: date = today's UTC midnight, clockIn =
    now, status 'present' (all other attendanceSchema fields at their
    defaults). -/
def freshAttendance (newId eid : Nat) (now : Int) : AttendanceDoc :=
  { id := newId, employeeId := eid, date := todayOf now, clockIn := some now,
    status := .present }

/- ------------------------------------------------------------------ -/
/- Concrete stores used by counterexamples and witnesses              -/
/- ------------------------------------------------------------------ -/

/-- A pending leave request: 3 inclusive days (start 1970-01-01,
    end 1970-01-03, epoch ms). -/
def pendingVacation : LeaveDoc :=
  { id := 1, employeeId := 10, leaveType := .annual, startDate := 0,
    endDate := 172800000, totalDays := 3, reason := "vacation" }

def dbPendingVacation : Db := { leaves := [pendingVacation], employees := [] }

def cancelledVacation : LeaveDoc := { pendingVacation with status := .cancelled }

def patchedTotalDaysLeave : LeaveDoc := { pendingVacation with totalDays := 999 }

/-- An already-processed leave request. -/
def processedLeave : LeaveDoc :=
  { id := 2, employeeId := 10, leaveType := .annual, startDate := 0,
    endDate := 0, totalDays := 1, reason := "x", status := .approved }

def dbProcessedLeave : Db := { leaves := [processedLeave], employees := [] }

def ownerEmp : EmployeeDoc :=
  { id := 10, email := "owner@x", status := .active, leaveBalance := ⟨20, 10, 5, 0⟩ }

def hrEmp : EmployeeDoc :=
  { id := 20, email := "hr@x", status := .active, leaveBalance := ⟨20, 10, 5, 0⟩ }

def dbForApproval : Db := { leaves := [pendingVacation], employees := [hrEmp, ownerEmp] }

/-- The persisted request after hrEmp approves pendingVacation at t = 99:
    every schema path of the result.  No path carries the approver's
    comments. -/
def approvedVacation : LeaveDoc :=
  { pendingVacation with status := .approved, approvedBy := some 20, approvedAt := some 99 }

def emptyDb : Db := { leaves := [], employees := [] }

/-- ownerEmp after the approval of pendingVacation deducts its 3 annual
    days. -/
def ownerAfterDeduction : EmployeeDoc :=
  { ownerEmp with
    leaveBalance := setBalance ownerEmp.leaveBalance .annual
      (getBalance ownerEmp.leaveBalance .annual - approvedVacation.totalDays) }

def createInput : CreateLeaveInput :=
  { leaveType := .annual, startDate := 0, endDate := 172800000, totalDays := 999,
    reason := "v" }

def createdDoc : LeaveDoc :=
  leavePreSave
    { id := 5, employeeId := 10, leaveType := .annual, startDate := 0,
      endDate := 172800000, totalDays := 999, reason := "v" }

/-- A store in which the request's owner is the only employee record. -/
def dbSelf : Db := { leaves := [pendingVacation], employees := [ownerEmp] }

/-- A store with the pending request but no employee records at all. -/
def dbOrphan : Db := { leaves := [pendingVacation], employees := [] }

/-- The approval transition committed with no resolved approver. -/
def approvedNoApprover (l : LeaveDoc) (t : Int) : LeaveDoc :=
  leavePreSave { l with status := .approved, approvedBy := none, approvedAt := some t }

/-- The rejection transition committed with no resolved approver. -/
def rejectedNoApprover (l : LeaveDoc) (t : Int) : LeaveDoc :=
  leavePreSave { l with status := .rejected, approvedBy := none, approvedAt := some t }

/-- An employee whose status is 'inactive': not 'active', but also not
    'terminated'. -/
def inactiveEmp : EmployeeDoc :=
  { id := 1, email := "i@x", status := .inactive, leaveBalance := ⟨20, 10, 5, 0⟩ }

/- ------------------------------------------------------------------ -/
/- Helper lemmas (shared)                                             -/
/- ------------------------------------------------------------------ -/

theorem attPreSave_fields (d : AttendanceDoc) :
    (attPreSave d).id = d.id ∧ (attPreSave d).employeeId = d.employeeId ∧
    (attPreSave d).date = d.date ∧ (attPreSave d).clockOut = d.clockOut := by
  rcases d with ⟨i, e, dt, ci, co, bs, be, h, st⟩
  cases ci <;> cases co <;> exact ⟨rfl, rfl, rfl, rfl⟩

/-- After persisting `d` over the record `a` that a `find?` returned, the
    same `find?` returns `d`, provided `d` keeps `a`'s id and still matches
    the filter. -/
theorem find?_saveAtt (l : List AttendanceDoc) (p : AttendanceDoc → Bool)
    (a d : AttendanceDoc) (hfind : l.find? p = some a) (hid : d.id = a.id)
    (hpd : p d = true) : (saveAtt l d).find? p = some d := by
  induction l with
  | nil => simp [List.find?] at hfind
  | cons x xs ih =>
    simp only [saveAtt, List.map_cons]
    by_cases hx : p x = true
    · have hax : a = x := by
        rw [List.find?_cons_of_pos _ hx] at hfind
        exact (Option.some.inj hfind).symm
      have hxid : x.id = d.id := by rw [hid, hax]
      rw [if_pos hxid]
      exact List.find?_cons_of_pos _ hpd
    · rw [List.find?_cons_of_neg _ hx] at hfind
      by_cases hxd : x.id = d.id
      · rw [if_pos hxd]
        exact List.find?_cons_of_pos _ hpd
      · rw [if_neg hxd, List.find?_cons_of_neg _ hx]
        simpa only [saveAtt] using ih hfind

/-- Nat ceiling division by 86400000 agrees with the rational ceiling:
    the JavaScript `Math.ceil(diff / 86400000)` of the middleware. -/
theorem ceil_div_day (n : Nat) :
    (((n + 86399999) / 86400000 : Nat) : Int) = ⌈(n : Rat) / 86400000⌉ := by
  have key : ∀ q : Nat, n ≤ q * 86400000 → q * 86400000 ≤ n + 86399999 →
      (q : Int) = ⌈(n : Rat) / 86400000⌉ := by
    intro q hlo hhi
    have hloq : (n : Rat) ≤ (q : Rat) * 86400000 := by exact_mod_cast hlo
    have hhiq : (q : Rat) * 86400000 ≤ (n : Rat) + 86399999 := by exact_mod_cast hhi
    have hle : ⌈(n : Rat) / 86400000⌉ ≤ (q : Int) := by
      rw [Int.ceil_le, div_le_iff₀ (by norm_num : (0 : Rat) < 86400000)]
      push_cast
      linarith
    have hgt : (q : Int) - 1 < ⌈(n : Rat) / 86400000⌉ := by
      rw [Int.lt_ceil]
      push_cast
      rw [lt_div_iff₀ (by norm_num : (0 : Rat) < 86400000)]
      linarith
    omega
  exact key _ (by omega) (by omega)

/- ------------------------------------------------------------------ -/
/- C8                                                                 -/
/- ------------------------------------------------------------------ -/

/-- **C8** (confirmed): whenever an attendance record is saved with both
    clockIn and clockOut present, the middleware stores totalWorkHours =
    (clockOut − clockIn) in hours, minus the break interval (breakEnd −
    breakStart) in hours when both break timestamps are present, rounded
    to 2 decimal places; and clockIn = T0, clockOut = T0 + 8h with no
    break stores exactly 8. -/
theorem totalWorkHours_spec :
    (∀ (d : AttendanceDoc) (ci co : Int), d.clockIn = some ci → d.clockOut = some co →
        (attPreSave d).totalWorkHours = round2 (specWorkedHours ci co d.breakStart d.breakEnd)) ∧
    (attPreSave attT0plus8h).totalWorkHours = 8 := by
  constructor
  · intro d ci co h1 h2
    rcases d with ⟨i, e, dt, dci, dco, bs, be, h, st⟩
    simp only at h1 h2
    subst h1 h2
    cases bs <;> cases be <;>
      · simp only [attPreSave, specWorkedHours, round2]
        congr 3
        push_cast
        ring
  · norm_num [attT0plus8h, attPreSave, jsRound]

/-- Witness for C8: the general statement applied at the concrete 8-hour
    record. -/
theorem totalWorkHours_spec_witness :
    (attPreSave attT0plus8h).totalWorkHours =
      round2 (specWorkedHours 0 28800000 none none) :=
  totalWorkHours_spec.1 attT0plus8h 0 28800000 rfl rfl

/- ------------------------------------------------------------------ -/
/- C2                                                                 -/
/- ------------------------------------------------------------------ -/

/-- **C2** (confirmed): (1) for an employee with no attendance record in
    today's UTC-midnight-aligned window, clockIn appends exactly one
    record (date = today UTC midnight, clockIn = now, status 'present')
    and returns it; (2) a second clockIn for the same employee on the same
    day fails with 400 Already clocked in; (3) when the store state at
    insert time already holds a record with the same (employeeId, date)
    key - the duplicate-key signal of the unique index - clockIn reports
    400 Already clocked in rather than a 500 server error. -/
theorem clockIn_once_and_duplicate_key :
    (∀ (db : List AttendanceDoc) (eid : Nat) (now : Int) (newId : Nat),
        (∀ r ∈ db, ¬(r.employeeId = eid ∧ todayOf now ≤ r.date ∧
            r.date < todayOf now + dayMs)) →
        clockIn db db eid now newId =
          .ok (db ++ [freshAttendance newId eid now], freshAttendance newId eid now)) ∧
    (∀ (db db' : List AttendanceDoc) (eid : Nat) (now : Int) (newId : Nat)
        (rec : AttendanceDoc) (now' : Int) (newId' : Nat),
        clockIn db db eid now newId = .ok (db', rec) →
        todayOf now' = todayOf now →
        clockIn db' db' eid now' newId' = .error (400, .alreadyClockedIn)) ∧
    (∀ (checkDb createDb : List AttendanceDoc) (eid : Nat) (now : Int) (newId : Nat),
        checkDb.find? (attWindow (todayOf now) eid) = none →
        (∃ r ∈ createDb, r.employeeId = eid ∧ r.date = todayOf now) →
        clockIn checkDb createDb eid now newId = .error (400, .alreadyClockedIn)) := by
  refine ⟨?_, ?_, ?_⟩
  · intro db eid now newId h
    have hf : db.find? (attWindow (todayOf now) eid) = none := by
      rw [List.find?_eq_none]
      intro x hx
      simpa [attWindow] using h x hx
    have ha : (db.any fun r => decide (r.employeeId = eid ∧ r.date = todayOf now)) = false := by
      rw [List.any_eq_false]
      intro x hx
      simp only [decide_eq_true_eq]
      rintro ⟨he, hd⟩
      refine h x hx ⟨he, ?_, ?_⟩
      · rw [hd]
      · rw [hd]; unfold dayMs; omega
    simp only [clockIn, hf, ha]
    simp [attPreSave, freshAttendance]
  · intro db db' eid now newId rec now' newId' hsucc hday
    simp only [clockIn] at hsucc
    cases hf : db.find? (attWindow (todayOf now) eid) with
    | some a => rw [hf] at hsucc; simp at hsucc
    | none =>
      rw [hf] at hsucc
      cases ha : (db.any fun r => decide (r.employeeId = eid ∧ r.date = todayOf now)) with
      | true => rw [ha] at hsucc; simp at hsucc
      | false =>
        rw [ha] at hsucc
        simp only [Bool.false_eq_true, if_false, Except.ok.injEq, Prod.mk.injEq] at hsucc
        obtain ⟨hdb', hrec⟩ := hsucc
        have hmem : rec ∈ db' := by rw [← hdb', ← hrec]; simp
        have hpred : attWindow (todayOf now') eid rec = true := by
          rw [← hrec]
          simp only [attWindow, attPreSave, hday, decide_eq_true_eq]
          refine ⟨trivial, le_refl _, ?_⟩
          unfold dayMs; omega
        have hsome : (db'.find? (attWindow (todayOf now') eid)).isSome := by
          rw [List.find?_isSome]
          exact ⟨rec, hmem, hpred⟩
        obtain ⟨b, hb⟩ := Option.isSome_iff_exists.mp hsome
        simp only [clockIn, hb]
  · intro checkDb createDb eid now newId hf hex
    obtain ⟨r, hr, h1, h2⟩ := hex
    have ha : (createDb.any fun r => decide (r.employeeId = eid ∧ r.date = todayOf now)) = true := by
      rw [List.any_eq_true]
      exact ⟨r, hr, by simp [h1, h2]⟩
    simp only [clockIn, hf, ha]
    rfl

/-- Witness for C2: a first clock-in on an empty store succeeds and
    creates the single fresh record. -/
theorem clockIn_once_witness :
    clockIn [] [] 7 1000 1 = .ok ([freshAttendance 1 7 1000], freshAttendance 1 7 1000) :=
  clockIn_once_and_duplicate_key.1 [] 7 1000 1 (by simp)

/- ------------------------------------------------------------------ -/
/- C5                                                                 -/
/- ------------------------------------------------------------------ -/

/-- **C5** (confirmed): clockOut with no attendance record in today's
    window fails with 400 No clock-in record; clockOut on a record that
    already has a clockOut timestamp fails with 400 Already clocked out;
    otherwise clockOut persists clockOut = now, and a second clockOut on
    the same day then fails with 400 Already clocked out - two successive
    clock-outs succeed exactly once. -/
theorem clockOut_transitions :
    (∀ (db : List AttendanceDoc) (eid : Nat) (now : Int),
        (∀ r ∈ db, ¬(r.employeeId = eid ∧ todayOf now ≤ r.date ∧
            r.date < todayOf now + dayMs)) →
        clockOut db eid now = .error (400, .noClockInRecord)) ∧
    (∀ (db : List AttendanceDoc) (eid : Nat) (now : Int) (r : AttendanceDoc),
        db.find? (attWindow (todayOf now) eid) = some r → r.clockOut.isSome →
        clockOut db eid now = .error (400, .alreadyClockedOut)) ∧
    (∀ (db : List AttendanceDoc) (eid : Nat) (now : Int) (r : AttendanceDoc),
        db.find? (attWindow (todayOf now) eid) = some r → r.clockOut = none →
        clockOut db eid now =
          .ok (saveAtt db (attPreSave { r with clockOut := some now }),
              attPreSave { r with clockOut := some now }) ∧
        ∀ now', todayOf now' = todayOf now →
          clockOut (saveAtt db (attPreSave { r with clockOut := some now })) eid now' =
            .error (400, .alreadyClockedOut)) := by
  refine ⟨?_, ?_, ?_⟩
  · intro db eid now h
    have hf : db.find? (attWindow (todayOf now) eid) = none := by
      rw [List.find?_eq_none]
      intro x hx
      simpa [attWindow] using h x hx
    simp only [clockOut, hf]
  · intro db eid now r hfind hout
    obtain ⟨v, hv⟩ := Option.isSome_iff_exists.mp hout
    simp only [clockOut, hfind, hv]
  · intro db eid now r hfind hnone
    have hfields := attPreSave_fields { r with clockOut := some now }
    have hpr : attWindow (todayOf now) eid r = true := List.find?_some hfind
    have hpd : attWindow (todayOf now) eid (attPreSave { r with clockOut := some now }) = true := by
      simp only [attWindow, decide_eq_true_eq] at hpr ⊢
      refine ⟨?_, ?_, ?_⟩
      · rw [hfields.2.1]; exact hpr.1
      · rw [hfields.2.2.1]; exact hpr.2.1
      · rw [hfields.2.2.1]; exact hpr.2.2
    constructor
    · simp only [clockOut, hfind, hnone]
    · intro now' hday
      simp only [clockOut]
      rw [hday]
      rw [find?_saveAtt db (attWindow (todayOf now) eid) r
        (attPreSave { r with clockOut := some now }) hfind hfields.1 hpd]
      simp [hfields.2.2.2]

/-- Witness for C5: clock-out on an empty store reports No clock-in
    record. -/
theorem clockOut_transitions_witness :
    clockOut [] 7 1000 = .error (400, .noClockInRecord) :=
  clockOut_transitions.1 [] 7 1000 (by simp)

/- ------------------------------------------------------------------ -/
/- Leave-workflow helper lemmas (shared)                              -/
/- ------------------------------------------------------------------ -/

/-- All four status-guarded operations reject a non-pending request with
    400 Already processed and leave the store untouched. -/
theorem leave_nonpending_guards (db : Db) (i : Nat) (l : LeaveDoc) (p : LeavePatch)
    (u : User) (c : Option String) (t : Int)
    (hfind : findLeave db.leaves i = some l) (hs : ¬ l.status = .pending) :
    updateLeave db i p = (db, .error (400, .alreadyProcessed)) ∧
    approveLeave db i u c t = (db, .error (400, .alreadyProcessed)) ∧
    rejectLeave db i u c t = (db, .error (400, .alreadyProcessed)) ∧
    deleteLeave db i = (db, .error (400, .alreadyProcessed)) := by
  refine ⟨?_, ?_, ?_, ?_⟩ <;>
    simp only [updateLeave, approveLeave, rejectLeave, deleteLeave, hfind, if_neg hs]

/-- Inversion of a successful `approveLeave`. -/
theorem approveLeave_ok_inv (db : Db) (i : Nat) (u : User) (c : Option String)
    (t : Int) (out : Db) (l' : LeaveDoc)
    (h : approveLeave db i u c t = (out, .ok l')) :
    ∃ l, findLeave db.leaves i = some l ∧ l.status = .pending ∧
      ¬(∃ a, findEmpByEmail db.employees u.email = some a ∧ l.employeeId = a.id) ∧
      l' = leavePreSave { l with
                          status := .approved,
                          approvedBy := (findEmpByEmail db.employees u.email).map (fun a => a.id),
                          approvedAt := some t } ∧
      out = (approveCommit db l ((findEmpByEmail db.employees u.email).map (fun a => a.id)) t).1 := by
  unfold approveLeave at h
  split at h
  · exact absurd h (by simp)
  · rename_i l hf
    split at h
    · rename_i hs
      split at h
      · rename_i a he
        split at h
        · exact absurd h (by simp)
        · rename_i hid
          simp only [approveCommit, Prod.mk.injEq, Except.ok.injEq] at h
          obtain ⟨hout, hsaved⟩ := h
          refine ⟨l, hf, hs, ?_, ?_, ?_⟩
          · rintro ⟨b, hb, hbid⟩
            rw [he, Option.some.injEq] at hb
            subst hb
            exact hid hbid
          · rw [he]; exact hsaved.symm
          · rw [he]; exact hout.symm
      · rename_i he
        simp only [approveCommit, Prod.mk.injEq, Except.ok.injEq] at h
        obtain ⟨hout, hsaved⟩ := h
        refine ⟨l, hf, hs, ?_, ?_, ?_⟩
        · rintro ⟨a, ha, -⟩
          rw [he] at ha
          exact Option.noConfusion ha
        · rw [he]; exact hsaved.symm
        · rw [he]; exact hout.symm
    · exact absurd h (by simp)

/-- Inversion of a successful `rejectLeave`. -/
theorem rejectLeave_ok_inv (db : Db) (i : Nat) (u : User) (c : Option String)
    (t : Int) (out : Db) (l' : LeaveDoc)
    (h : rejectLeave db i u c t = (out, .ok l')) :
    ∃ l, findLeave db.leaves i = some l ∧ l.status = .pending ∧
      ¬(∃ a, findEmpByEmail db.employees u.email = some a ∧ l.employeeId = a.id) ∧
      l' = leavePreSave { l with
                          status := .rejected,
                          approvedBy := (findEmpByEmail db.employees u.email).map (fun a => a.id),
                          approvedAt := some t } := by
  unfold rejectLeave at h
  split at h
  · exact absurd h (by simp)
  · rename_i l hf
    split at h
    · rename_i hs
      split at h
      · rename_i a he
        split at h
        · exact absurd h (by simp)
        · rename_i hid
          simp only [rejectCommit, Prod.mk.injEq, Except.ok.injEq] at h
          obtain ⟨-, hsaved⟩ := h
          refine ⟨l, hf, hs, ?_, ?_⟩
          · rintro ⟨b, hb, hbid⟩
            rw [he, Option.some.injEq] at hb
            subst hb
            exact hid hbid
          · rw [he]; exact hsaved.symm
      · rename_i he
        simp only [rejectCommit, Prod.mk.injEq, Except.ok.injEq] at h
        obtain ⟨-, hsaved⟩ := h
        refine ⟨l, hf, hs, ?_, ?_⟩
        · rintro ⟨a, ha, -⟩
          rw [he] at ha
          exact Option.noConfusion ha
        · rw [he]; exact hsaved.symm
    · exact absurd h (by simp)

/-- Inversion of a successful `updateLeave`. -/
theorem updateLeave_ok_inv (db : Db) (i : Nat) (p : LeavePatch) (out : Db)
    (l' : LeaveDoc) (h : updateLeave db i p = (out, .ok l')) :
    ∃ l, findLeave db.leaves i = some l ∧ l.status = .pending ∧ l' = applyPatch l p ∧
      out = { db with leaves := saveLeave db.leaves (applyPatch l p) } := by
  unfold updateLeave at h
  split at h
  · exact absurd h (by simp)
  · rename_i l hf
    split at h
    · rename_i hs
      simp only [Prod.mk.injEq, Except.ok.injEq] at h
      obtain ⟨hout, hl⟩ := h
      exact ⟨l, hf, hs, hl.symm, hout.symm⟩
    · exact absurd h (by simp)

/-- `rejectLeave` never touches the employee documents (in particular no
    leave-balance counter changes). -/
theorem rejectLeave_employees (db : Db) (i : Nat) (u : User) (c : Option String)
    (t : Int) : (rejectLeave db i u c t).1.employees = db.employees := by
  unfold rejectLeave
  split
  · rfl
  · split
    · split
      · split
        · rfl
        · rfl
      · rfl
    · rfl

/- ------------------------------------------------------------------ -/
/- C7                                                                 -/
/- ------------------------------------------------------------------ -/

/-- **C7** (corrected): every leave document written through the document
    save path - `Leave.create` and `document.save()` (the approve/reject
    commits) all run the leaveSchema middleware - stores totalDays =
    ceil(|endDate − startDate| in days) + 1, the inclusive day count of
    both endpoints; in particular startDate = 2024-01-15 and endDate =
    2024-01-17 yield totalDays = 3.  The claim's universal form over
    *every persisted* request is false, because updateLeave persists
    through findByIdAndUpdate without running the middleware (see the
    counterexample). -/
theorem totalDays_inclusive_ceil :
    (∀ d : LeaveDoc, (leavePreSave d).totalDays =
        ⌈((d.endDate - d.startDate).natAbs : Rat) / 86400000⌉ + 1) ∧
    (∀ (db : Db) (newId eid : Nat) (input : CreateLeaveInput) (out : Db) (l' : LeaveDoc),
        createLeave db newId eid input = (out, .ok l') →
        l'.totalDays = ⌈((l'.endDate - l'.startDate).natAbs : Rat) / 86400000⌉ + 1) ∧
    (∀ (db : Db) (i : Nat) (u : User) (c : Option String) (t : Int)
        (out : Db) (l' : LeaveDoc),
        approveLeave db i u c t = (out, .ok l') →
        l'.totalDays = ⌈((l'.endDate - l'.startDate).natAbs : Rat) / 86400000⌉ + 1) ∧
    (∀ (db : Db) (i : Nat) (u : User) (c : Option String) (t : Int)
        (out : Db) (l' : LeaveDoc),
        rejectLeave db i u c t = (out, .ok l') →
        l'.totalDays = ⌈((l'.endDate - l'.startDate).natAbs : Rat) / 86400000⌉ + 1) ∧
    (leavePreSave leaveJan15to17).totalDays = 3 := by
  have key : ∀ d : LeaveDoc, (leavePreSave d).totalDays =
      ⌈((d.endDate - d.startDate).natAbs : Rat) / 86400000⌉ + 1 := by
    intro d
    simp only [leavePreSave, computeTotalDays]
    rw [ceil_div_day]
  refine ⟨key, ?_, ?_, ?_, by decide⟩
  · intro db newId eid input out l' h
    simp only [createLeave, Prod.mk.injEq, Except.ok.injEq] at h
    obtain ⟨-, hl'⟩ := h
    rw [← hl']
    exact key _
  · intro db i u c t out l' h
    obtain ⟨l, -, -, -, hl', -⟩ := approveLeave_ok_inv db i u c t out l' h
    rw [hl']
    exact key _
  · intro db i u c t out l' h
    obtain ⟨l, -, -, -, hl'⟩ := rejectLeave_ok_inv db i u c t out l' h
    rw [hl']
    exact key _

/-- Counterexample to C7 as stated: after updateLeave patches totalDays to
    999, the store holds a persisted request with both dates present
    (start 0, end 172800000, deriving an inclusive count of 3) whose
    stored totalDays is 999 ≠ ceil(|endDate − startDate| in days) + 1 -
    findByIdAndUpdate persists without running the middleware. -/
theorem totalDays_persisted_cex :
    findLeave (updateLeave dbPendingVacation 1 { totalDays := some 999 }).1.leaves 1 =
      some patchedTotalDaysLeave ∧
    patchedTotalDaysLeave.totalDays ≠
      ⌈((patchedTotalDaysLeave.endDate - patchedTotalDaysLeave.startDate).natAbs : Rat)
          / 86400000⌉ + 1 := by
  constructor
  · decide
  · rw [← ceil_div_day]
    decide

/-- Witness for C7 (amended): the concrete create (caller-supplied
    totalDays 999) stores the inclusive ceiling of its dates. -/
theorem totalDays_inclusive_ceil_witness :
    createdDoc.totalDays =
      ⌈((createdDoc.endDate - createdDoc.startDate).natAbs : Rat) / 86400000⌉ + 1 :=
  totalDays_inclusive_ceil.2.1 emptyDb 5 10 createInput
    (createLeave emptyDb 5 10 createInput).1 createdDoc (by decide)

/- ------------------------------------------------------------------ -/
/- C1                                                                 -/
/- ------------------------------------------------------------------ -/

/-- **C1** (corrected): every operation on a non-pending request fails
    with 400 Already processed and leaves the store unchanged, so no
    operation moves a request out of a non-pending state; approveLeave
    succeeds only on pending requests and produces status 'approved';
    rejectLeave likewise produces 'rejected'; but updateLeave applies the
    caller's patch wholesale, so it can set the status of a *pending*
    request to any schema value (see the counterexample) - the original
    claim that pending→approved (approveLeave) and pending→rejected
    (rejectLeave) are the only transitions any operation performs is
    false. -/
theorem leave_status_transitions :
    (∀ (db : Db) (i : Nat) (l : LeaveDoc) (p : LeavePatch) (u : User)
        (c : Option String) (t : Int),
        findLeave db.leaves i = some l → ¬ l.status = .pending →
        updateLeave db i p = (db, .error (400, .alreadyProcessed)) ∧
        approveLeave db i u c t = (db, .error (400, .alreadyProcessed)) ∧
        rejectLeave db i u c t = (db, .error (400, .alreadyProcessed)) ∧
        deleteLeave db i = (db, .error (400, .alreadyProcessed))) ∧
    (∀ (db : Db) (i : Nat) (u : User) (c : Option String) (t : Int)
        (out : Db) (l' : LeaveDoc),
        approveLeave db i u c t = (out, .ok l') →
        l'.status = .approved ∧
        ∃ l, findLeave db.leaves i = some l ∧ l.status = .pending) ∧
    (∀ (db : Db) (i : Nat) (u : User) (c : Option String) (t : Int)
        (out : Db) (l' : LeaveDoc),
        rejectLeave db i u c t = (out, .ok l') →
        l'.status = .rejected ∧
        ∃ l, findLeave db.leaves i = some l ∧ l.status = .pending) ∧
    (∀ (db : Db) (i : Nat) (p : LeavePatch) (out : Db) (l' : LeaveDoc),
        updateLeave db i p = (out, .ok l') →
        ∃ l, findLeave db.leaves i = some l ∧ l.status = .pending ∧
          l'.status = p.status.getD l.status) := by
  refine ⟨?_, ?_, ?_, ?_⟩
  · intro db i l p u c t hfind hs
    exact leave_nonpending_guards db i l p u c t hfind hs
  · intro db i u c t out l' h
    obtain ⟨l, hf, hs, -, hl', -⟩ := approveLeave_ok_inv db i u c t out l' h
    exact ⟨by rw [hl']; rfl, l, hf, hs⟩
  · intro db i u c t out l' h
    obtain ⟨l, hf, hs, -, hl'⟩ := rejectLeave_ok_inv db i u c t out l' h
    exact ⟨by rw [hl']; rfl, l, hf, hs⟩
  · intro db i p out l' h
    obtain ⟨l, hf, hs, hl', -⟩ := updateLeave_ok_inv db i p out l' h
    exact ⟨l, hf, hs, by rw [hl']; rfl⟩

/-- Counterexample to C1 as stated: updateLeave on a pending request with
    a body containing `status: 'cancelled'` succeeds (200) and persists
    the transition pending → cancelled - a status transition performed by
    an operation other than approveLeave/rejectLeave, and to a value other
    than approved/rejected. -/
theorem leave_status_transitions_cex :
    pendingVacation.status = .pending ∧
    updateLeave dbPendingVacation 1 { status := some .cancelled } =
      ({ leaves := [cancelledVacation], employees := [] }, .ok cancelledVacation) ∧
    cancelledVacation.status = .cancelled := by decide

/-- Witness for C1: the guard clauses at a concrete processed request. -/
theorem leave_status_transitions_witness :
    updateLeave dbProcessedLeave 2 {} = (dbProcessedLeave, .error (400, .alreadyProcessed)) ∧
    deleteLeave dbProcessedLeave 2 = (dbProcessedLeave, .error (400, .alreadyProcessed)) :=
  ⟨(leave_status_transitions.1 dbProcessedLeave 2 processedLeave {}
      { email := "u@x" } none 0 (by decide) (by decide)).1,
   (leave_status_transitions.1 dbProcessedLeave 2 processedLeave {}
      { email := "u@x" } none 0 (by decide) (by decide)).2.2.2⟩

/- ------------------------------------------------------------------ -/
/- C4                                                                 -/
/- ------------------------------------------------------------------ -/

/-- **C4** (corrected): totalDays is recomputed from the dates on create
    (`Leave.create` runs the save middleware, so caller-supplied totalDays
    is overwritten) and on the approve/reject save path; but updateLeave
    persists via findByIdAndUpdate, which does not run document save
    middleware: the patch is applied verbatim, so a caller-supplied
    totalDays is stored as given and totalDays is not recomputed when the
    dates change through update. -/
theorem totalDays_recomputed_only_on_save :
    (∀ (db : Db) (newId eid : Nat) (input : CreateLeaveInput) (out : Db) (l' : LeaveDoc),
        createLeave db newId eid input = (out, .ok l') →
        l'.startDate = input.startDate ∧ l'.endDate = input.endDate ∧
        l'.totalDays = computeTotalDays input.startDate input.endDate) ∧
    (∀ (db : Db) (i : Nat) (u : User) (c : Option String) (t : Int)
        (out : Db) (l' : LeaveDoc),
        approveLeave db i u c t = (out, .ok l') →
        l'.totalDays = computeTotalDays l'.startDate l'.endDate) ∧
    (∀ (db : Db) (i : Nat) (u : User) (c : Option String) (t : Int)
        (out : Db) (l' : LeaveDoc),
        rejectLeave db i u c t = (out, .ok l') →
        l'.totalDays = computeTotalDays l'.startDate l'.endDate) ∧
    (∀ (db : Db) (i : Nat) (p : LeavePatch) (out : Db) (l' : LeaveDoc),
        updateLeave db i p = (out, .ok l') →
        ∃ l, findLeave db.leaves i = some l ∧ l' = applyPatch l p ∧
          l'.totalDays = p.totalDays.getD l.totalDays) := by
  refine ⟨?_, ?_, ?_, ?_⟩
  · intro db newId eid input out l' h
    simp only [createLeave, Prod.mk.injEq, Except.ok.injEq] at h
    obtain ⟨-, hl'⟩ := h
    rw [← hl']
    exact ⟨rfl, rfl, rfl⟩
  · intro db i u c t out l' h
    obtain ⟨l, -, -, -, hl', -⟩ := approveLeave_ok_inv db i u c t out l' h
    rw [hl']; rfl
  · intro db i u c t out l' h
    obtain ⟨l, -, -, -, hl'⟩ := rejectLeave_ok_inv db i u c t out l' h
    rw [hl']; rfl
  · intro db i p out l' h
    obtain ⟨l, hf, -, hl', -⟩ := updateLeave_ok_inv db i p out l' h
    exact ⟨l, hf, hl', by rw [hl']; rfl⟩

/-- Counterexample to C4 as stated: updateLeave accepts a caller-supplied
    totalDays of 999 on a request whose stored dates derive 3, and
    persists 999 - totalDays is trusted from caller input on update. -/
theorem totalDays_update_cex :
    (updateLeave dbPendingVacation 1 { totalDays := some 999 }).2 =
      .ok patchedTotalDaysLeave ∧
    patchedTotalDaysLeave.totalDays ≠
      computeTotalDays patchedTotalDaysLeave.startDate patchedTotalDaysLeave.endDate := by
  decide

/-- Witness for C4: create overwrites a caller-supplied totalDays of 999
    with the derived value. -/
theorem totalDays_recomputed_witness :
    createdDoc.totalDays = computeTotalDays createInput.startDate createInput.endDate :=
  (totalDays_recomputed_only_on_save.1 emptyDb 5 10 createInput
    (createLeave emptyDb 5 10 createInput).1 createdDoc (by decide)).2.2

/- ------------------------------------------------------------------ -/
/- C3                                                                 -/
/- ------------------------------------------------------------------ -/

/-- **C3** (corrected): a successful approveLeave sets status 'approved'
    and records the approver id and approval timestamp, and decrements the
    owning employee's balance counter for the leave type by exactly the
    request's totalDays, silently skipping the deduction when the employee
    record is absent or the leave type has no balance counter; rejectLeave
    never changes any balance.  The approver's comments, however, are
    *not* recorded: the controller assigns them to `approverComments`, a
    path leaveSchema does not declare, so strict mode drops them (see the
    counterexample; `rejectionReason` is untouched and LeaveDoc - the full
    set of schema paths - has no field holding them). -/
theorem approve_records_and_deducts :
    (∀ (db : Db) (i : Nat) (u : User) (c : Option String) (t : Int)
        (out : Db) (l' l : LeaveDoc),
        findLeave db.leaves i = some l →
        approveLeave db i u c t = (out, .ok l') →
        l'.status = .approved ∧
        l'.approvedBy = (findEmpByEmail db.employees u.email).map (fun a => a.id) ∧
        l'.approvedAt = some t ∧
        l'.rejectionReason = l.rejectionReason ∧
        (∀ emp k, findEmpById db.employees l.employeeId = some emp →
            balanceKey l.leaveType = some k →
            out.employees = saveEmp db.employees
              { emp with leaveBalance :=
                  setBalance emp.leaveBalance k (getBalance emp.leaveBalance k - l'.totalDays) }) ∧
        (findEmpById db.employees l.employeeId = none → out.employees = db.employees) ∧
        (balanceKey l.leaveType = none → out.employees = db.employees)) ∧
    (∀ (db : Db) (i : Nat) (u : User) (c : Option String) (t : Int),
        (rejectLeave db i u c t).1.employees = db.employees) := by
  refine ⟨?_, ?_⟩
  · intro db i u c t out l' l hfind h
    obtain ⟨l0, hf0, hs0, -, hl', hout⟩ := approveLeave_ok_inv db i u c t out l' h
    rw [hfind, Option.some.injEq] at hf0
    subst hf0
    subst hl'
    refine ⟨rfl, rfl, rfl, rfl, ?_, ?_, ?_⟩
    · intro emp k hemp hkey
      rw [hout]
      simp only [approveCommit, hemp, hkey]
    · intro hemp
      rw [hout]
      simp only [approveCommit, hemp]
    · intro hkey
      rw [hout]
      cases hemp : findEmpById db.employees l.employeeId with
      | none => simp only [approveCommit, hemp]
      | some emp => simp only [approveCommit, hemp, hkey]
  · intro db i u c t
    exact rejectLeave_employees db i u c t

/-- Counterexample to C3 as stated: hrEmp approves pendingVacation with
    comments "Approved"; the persisted request equals `approvedVacation`,
    whose complete list of schema paths carries the string nowhere -
    comments are never persisted (they are written to a non-schema path). -/
theorem approve_comments_cex :
    (approveLeave dbForApproval 1 { email := "hr@x" } (some "Approved") 99).2 =
      .ok approvedVacation ∧
    approvedVacation.rejectionReason = none ∧
    approvedVacation.reason = "vacation" := by decide

/-- Witness for C3 (amended): the concrete approval deducts 3 annual-leave
    days from the owner. -/
theorem approve_deducts_witness :
    (approveLeave dbForApproval 1 { email := "hr@x" } (some "ok") 99).1.employees =
      saveEmp dbForApproval.employees ownerAfterDeduction :=
  (approve_records_and_deducts.1 dbForApproval 1 { email := "hr@x" } (some "ok") 99
      (approveLeave dbForApproval 1 { email := "hr@x" } (some "ok") 99).1 approvedVacation
      pendingVacation (by decide) (by decide)).2.2.2.2.1 ownerEmp .annual (by decide) rfl

/- ------------------------------------------------------------------ -/
/- C6                                                                 -/
/- ------------------------------------------------------------------ -/

/-- **C6** (confirmed): when the employee record resolved from the
    approver's email is the request's owner, approveLeave and rejectLeave
    on a pending request fail with the 400 self-action error and leave the
    store unchanged; and under that resolution no call of either operation
    can ever succeed (pending or not), and the store is never modified -
    an approver can never approve or reject their own request. -/
theorem no_self_processing :
    (∀ (db : Db) (i : Nat) (u : User) (c : Option String) (t : Int)
        (l : LeaveDoc) (a : EmployeeDoc),
        findLeave db.leaves i = some l → l.status = .pending →
        findEmpByEmail db.employees u.email = some a → a.id = l.employeeId →
        approveLeave db i u c t = (db, .error (400, .selfAction)) ∧
        rejectLeave db i u c t = (db, .error (400, .selfAction))) ∧
    (∀ (db : Db) (i : Nat) (u : User) (c : Option String) (t : Int)
        (l : LeaveDoc) (a : EmployeeDoc),
        findLeave db.leaves i = some l →
        findEmpByEmail db.employees u.email = some a → a.id = l.employeeId →
        (∀ out l', approveLeave db i u c t = (out, .ok l') → False) ∧
        (∀ out l', rejectLeave db i u c t = (out, .ok l') → False) ∧
        (approveLeave db i u c t).1 = db ∧
        (rejectLeave db i u c t).1 = db) := by
  refine ⟨?_, ?_⟩
  · intro db i u c t l a hfind hstat he hid
    have hid' : l.employeeId = a.id := hid.symm
    constructor
    · simp only [approveLeave, hfind, if_pos hstat, he, if_pos hid']
    · simp only [rejectLeave, hfind, if_pos hstat, he, if_pos hid']
  · intro db i u c t l a hfind he hid
    have hid' : l.employeeId = a.id := hid.symm
    refine ⟨?_, ?_, ?_, ?_⟩
    · intro out l' h
      obtain ⟨l0, hf0, -, hself, -, -⟩ := approveLeave_ok_inv db i u c t out l' h
      rw [hfind, Option.some.injEq] at hf0
      subst hf0
      exact hself ⟨a, he, hid'⟩
    · intro out l' h
      obtain ⟨l0, hf0, -, hself, -⟩ := rejectLeave_ok_inv db i u c t out l' h
      rw [hfind, Option.some.injEq] at hf0
      subst hf0
      exact hself ⟨a, he, hid'⟩
    · by_cases hs : l.status = .pending
      · simp only [approveLeave, hfind, if_pos hs, he, if_pos hid']
      · simp only [approveLeave, hfind, if_neg hs]
    · by_cases hs : l.status = .pending
      · simp only [rejectLeave, hfind, if_pos hs, he, if_pos hid']
      · simp only [rejectLeave, hfind, if_neg hs]

/-- Witness for C6: the owner of pendingVacation tries to approve it. -/
theorem no_self_processing_witness :
    approveLeave dbSelf 1 { email := "owner@x" } none 0 =
      (dbSelf, .error (400, .selfAction)) :=
  (no_self_processing.1 dbSelf 1 { email := "owner@x" } none 0 pendingVacation
    ownerEmp (by decide) rfl (by decide) rfl).1

/- ------------------------------------------------------------------ -/
/- C10                                                                -/
/- ------------------------------------------------------------------ -/

/-- **C10** (confirmed): when no employee record matches the approver
    principal's email, the self-check is skipped entirely: the pending
    request transitions (approve → 'approved', reject → 'rejected') with
    approvedBy left unset - even when the principal's linked employee id
    is the request's owner. -/
theorem unresolved_approver_skips_self_check :
    ∀ (db : Db) (i : Nat) (u : User) (c : Option String) (t : Int) (l : LeaveDoc),
      findLeave db.leaves i = some l → l.status = .pending →
      findEmpByEmail db.employees u.email = none →
      u.employeeId = some l.employeeId →
      approveLeave db i u c t =
        ((approveCommit db l none t).1, .ok (approvedNoApprover l t)) ∧
      (approvedNoApprover l t).status = .approved ∧
      (approvedNoApprover l t).approvedBy = none ∧
      rejectLeave db i u c t =
        ((rejectCommit db l none t).1, .ok (rejectedNoApprover l t)) ∧
      (rejectedNoApprover l t).status = .rejected ∧
      (rejectedNoApprover l t).approvedBy = none := by
  intro db i u c t l hfind hs he hown
  refine ⟨?_, rfl, rfl, ?_, rfl, rfl⟩
  · simp only [approveLeave, hfind, if_pos hs, he]
    rfl
  · simp only [rejectLeave, hfind, if_pos hs, he]
    rfl

/-- Witness for C10: the owner principal (linked employee id 10 = the
    request's owner) whose email matches no employee record successfully
    approves their own pending request, approvedBy unset. -/
theorem unresolved_approver_witness :
    approveLeave dbOrphan 1 { email := "owner@x", employeeId := some 10 } none 7 =
      ((approveCommit dbOrphan pendingVacation none 7).1,
        .ok (approvedNoApprover pendingVacation 7)) :=
  (unresolved_approver_skips_self_check dbOrphan 1
    { email := "owner@x", employeeId := some 10 } none 7 pendingVacation
    (by decide) rfl (by decide) rfl).1

/- ------------------------------------------------------------------ -/
/- C9                                                                 -/
/- ------------------------------------------------------------------ -/

/-- **C9** (corrected): attendanceStats computes absentToday as
    totalEmployees − presentToday with no correction when negative, where
    totalEmployees counts the employees whose status is not 'terminated'
    (active, inactive and on-leave alike - *not* only status 'active', see
    the counterexample); attendanceRate is round(presentToday /
    totalEmployees × 100) when totalEmployees > 0 and 0 otherwise. -/
theorem attendanceStats_formulas :
    ∀ (emps : List EmployeeDoc) (dbA : List AttendanceDoc) (now : Int),
      (getAttendanceStats emps dbA now).totalEmployees =
        (emps.filter fun e => decide (¬ e.status = .terminated)).length ∧
      (getAttendanceStats emps dbA now).presentToday =
        (dbA.filter fun r => decide (todayOf now ≤ r.date ∧
          r.date < todayOf now + dayMs ∧ r.status = .present)).length ∧
      (getAttendanceStats emps dbA now).absentToday =
        ((getAttendanceStats emps dbA now).totalEmployees : Int) -
          ((getAttendanceStats emps dbA now).presentToday : Int) ∧
      ((getAttendanceStats emps dbA now).totalEmployees = 0 →
        (getAttendanceStats emps dbA now).attendanceRate = 0) ∧
      (0 < (getAttendanceStats emps dbA now).totalEmployees →
        (getAttendanceStats emps dbA now).attendanceRate =
          jsRound (((getAttendanceStats emps dbA now).presentToday : Rat) /
            ((getAttendanceStats emps dbA now).totalEmployees : Rat) * 100)) := by
  intro emps dbA now
  refine ⟨rfl, rfl, rfl, ?_, ?_⟩
  · intro h0
    dsimp only [getAttendanceStats] at h0 ⊢
    rw [h0]
    rfl
  · intro hpos
    dsimp only [getAttendanceStats] at hpos ⊢
    rw [if_pos hpos]

/-- Counterexample to C9 as stated: with a single employee whose status is
    'inactive' (and no attendance), the active-employee count is 0 and
    presentToday is 0, so the claim's formula yields absentToday = 0; the
    code counts every non-terminated employee and reports absentToday = 1. -/
theorem attendanceStats_cex :
    (getAttendanceStats [inactiveEmp] [] 0).absentToday ≠
      (([inactiveEmp].filter fun e => decide (e.status = .active)).length : Int) -
        ((getAttendanceStats [inactiveEmp] [] 0).presentToday : Int) := by decide

/-- Witness for C9 (amended): no employees at all gives attendanceRate 0
    with no division fault. -/
theorem attendanceStats_witness :
    (getAttendanceStats [] [] 0).attendanceRate = 0 :=
  (attendanceStats_formulas [] [] 0).2.2.2.1 rfl

end HRMS
